import Mathlib

/-!
Shallow embedding of the core of the `tarotcli` repository
(`src/tarotcli/models.py`, `deck.py`, `spreads.py`, `ai.py`)
together with proofs about the embedded operations.

Modelling conventions:
* Python values become Lean values (`str` becomes `String`, `int` becomes
  `Int` or `Nat`, `None`-able values become `Option`).
* Raised exceptions become `Except` errors.  Messages built with f-strings
  carry data (line numbers, counts, names); the embedding keeps that data
  in structured error constructors.
* The global `random` source is an oracle: `random.shuffle` becomes an
  arbitrary permutation supplied as an argument (theorems assume it is a
  permutation of the input), and `random.choice([True, False])` becomes a
  Boolean stream `flips : Nat -> Bool` read at a moving cursor `pos`.
* `datetime.now(timezone.utc).isoformat()` becomes an explicit `timestamp`
  argument (an external clock).
* File iteration in `TarotDeck.__init__` yields one line at a time; the
  outcome of `json.loads(line)` followed by `Card(**card_data)` on a line
  is abstracted as a `LineResult` (the JSON parser and the pydantic
  validator are external collaborators).
-/

set_option linter.unusedVariables false

namespace TarotCLI

/-- Card from `models.py`: a single tarot card record (pydantic model).
`type` is the `Literal["major", "minor"]` field kept as a string; `suit`
is `str | None`. -/
structure Card where
  id : String
  name : String
  type : String
  suit : Option String
  value : String
  value_int : Int
  upright_meaning : String
  reversed_meaning : String
  description : String
deriving Repr, DecidableEq

/-- FocusArea from `models.py`: `str`-valued enum of reading focus areas. -/
inductive FocusArea
  | career
  | relationships
  | personal_growth
  | spiritual
  | general
deriving Repr, DecidableEq

/-- The `.value` string of each `FocusArea` member, as declared in `models.py`. -/
def FocusArea.value : FocusArea → String
  | .career => "career"
  | .relationships => "relationships"
  | .personal_growth => "personal_growth"
  | .spiritual => "spiritual"
  | .general => "general"

/-- DrawnCard from `models.py`: a card as drawn, with orientation and
position; `position_meaning` defaults to the empty string and is assigned
later by the spread layout. -/
structure DrawnCard where
  card : Card
  reversed : Bool
  position : Nat
  position_meaning : String := ""
deriving Repr, DecidableEq

/-- Property `DrawnCard.effective_meaning` from `models.py`: the reversed
meaning when the card is reversed, the upright meaning otherwise. -/
def DrawnCard.effective_meaning (dc : DrawnCard) : String :=
  if dc.reversed then dc.card.reversed_meaning else dc.card.upright_meaning

/-- Reading from `models.py`: the aggregate result of one draw. -/
structure Reading where
  spread_type : String
  focus_area : FocusArea
  question : Option String
  cards : List DrawnCard
  interpretation : Option String
  baseline_interpretation : String
  timestamp : String
deriving Repr, DecidableEq

/-- TarotDeck state from `deck.py`: the full catalog (`self.cards`) and the
cards not yet drawn in the current shuffle (`self.remaining`). -/
structure TarotDeck where
  cards : List Card
  remaining : List Card
deriving Repr, DecidableEq

/-- Outcome of processing one input line in `TarotDeck.__init__`:
`json.loads(line)` either raises `json.JSONDecodeError`, or produces data on
which `Card(**card_data)` either raises a pydantic `ValidationError`
(the dataset line is valid JSON but fails field validation), or yields a
validated `Card`.  The JSON parser and validator themselves are external
collaborators; their per-line verdict is the embedded input. -/
inductive LineResult
  | jsonError
  | validationError
  | ok (card : Card)
deriving Repr, DecidableEq

/-- Errors raised by `TarotDeck.__init__` in `deck.py`:
`invalidJson n` embeds the ValueError whose message reads Invalid JSON at line n;
`validation` embeds the pydantic `ValidationError` that propagates uncaught
(the `except` clause catches only `json.JSONDecodeError`), carrying no line
number; `wrongCount n` embeds the ValueError whose message reads Expected 78 cards, found n. -/
inductive LoadError
  | invalidJson (lineNum : Nat)
  | validation
  | wrongCount (found : Nat)
deriving Repr, DecidableEq

/-- The line loop of `TarotDeck.__init__` (`enumerate(f, 1)` with a running
line number): stops at the first failing line, otherwise collects the
validated cards in file order. -/
def parseLines : Nat → List LineResult → Except LoadError (List Card)
  | _, [] => .ok []
  | lineNum, .jsonError :: _ => .error (.invalidJson lineNum)
  | lineNum, .validationError :: _ => .error .validation
  | lineNum, .ok c :: rest => (parseLines (lineNum + 1) rest).map (c :: ·)

/-- TarotDeck.__init__ from `deck.py`: parse every line, require exactly 78
cards, sort by `value_int` ascending (Python `list.sort` is a stable sort;
embedded as `mergeSort`), and initialise `remaining` as a copy of `cards`. -/
def loadDeck (lines : List LineResult) : Except LoadError TarotDeck := do
  let cards ← parseLines 1 lines
  if cards.length ≠ 78 then
    throw (.wrongCount cards.length)
  else
    let sorted := cards.mergeSort (fun a b => a.value_int ≤ b.value_int)
    return { cards := sorted, remaining := sorted }

/-- TarotDeck.shuffle from `deck.py`: resets `remaining` to a copy of
`self.cards` and permutes it with `random.shuffle`.  The permutation chosen
by the random source is supplied as the oracle argument `shuffled`;
theorems assume `shuffled` is a permutation of `deck.cards`. -/
def shuffle (d : TarotDeck) (shuffled : List Card) : TarotDeck :=
  { d with remaining := shuffled }

/-- Error raised by `TarotDeck.draw`: `insufficient r a` embeds
the ValueError whose message reads Cannot draw r cards, only a remaining; `indexError`
embeds the `IndexError` that `self.remaining.pop(0)` would raise on an empty
list (unreachable behind the count check). -/
inductive DrawError
  | insufficient (requested : Nat) (available : Nat)
  | indexError
deriving Repr, DecidableEq

/-- The loop body of `TarotDeck.draw`: for `i in range(count)`, pop the
front of `remaining`, flip the next coin of the random source for
`reversed`, and build a `DrawnCard` with 0-indexed `position`.  Returns
`none` when a pop hits an empty list (Python `IndexError`). -/
def drawGo (flips : Nat → Bool) :
    Nat → Nat → Nat → List Card → Option (List DrawnCard × List Card × Nat)
  | 0, _, pos, rem => some ([], rem, pos)
  | _ + 1, _, _, [] => none
  | n + 1, i, pos, c :: rem =>
    let dc : DrawnCard :=
      { card := c, reversed := flips pos, position := i, position_meaning := "" }
    match drawGo flips n (i + 1) (pos + 1) rem with
    | none => none
    | some (ds, rem2, pos2) => some (dc :: ds, rem2, pos2)

/-- TarotDeck.draw from `deck.py`: checks `count > len(self.remaining)`
first and raises before any card is popped or any orientation sampled;
otherwise runs the pop loop.  The triple returned is (result, deck state
after the call, random-source cursor after the call). -/
def draw (d : TarotDeck) (count : Nat) (flips : Nat → Bool) (pos : Nat) :
    Except DrawError (List DrawnCard) × TarotDeck × Nat :=
  if count > d.remaining.length then
    (.error (.insufficient count d.remaining.length), d, pos)
  else
    match drawGo flips count 0 pos d.remaining with
    | none => (.error .indexError, d, pos)
    | some (ds, rem2, pos2) => (.ok ds, { d with remaining := rem2 }, pos2)

/-- TarotDeck.reset from `deck.py`: restores `remaining` to a copy of
`self.cards` (the catalog in sorted order), with no randomisation. -/
def reset (d : TarotDeck) : TarotDeck :=
  { d with remaining := d.cards }

/-! ### Embedded Python string primitives

The data handled by `tarotcli` is ASCII, so Python `str.lower`, `str.title`,
`in`, and `str.replace` are embedded as character-list functions. -/

/-- Python `str.lower()` (ASCII data): lowercase every character. -/
def pyLower (s : String) : String :=
  ⟨s.data.map Char.toLower⟩

/-- Substring test on character lists: does `needle` occur as a contiguous
run inside the second list?  Mirrors CPython substring search semantics
(the empty needle occurs in every string). -/
def sublistContains (needle : List Char) : List Char → Bool
  | [] => needle.isEmpty
  | c :: rest => needle.isPrefixOf (c :: rest) || sublistContains needle rest

/-- Python `needle in hay` on strings. -/
def pyIn (needle hay : String) : Bool :=
  sublistContains needle.data hay.data

/-- Python `s.replace(old, new)` on character lists: replace every
non-overlapping occurrence of `old`, scanning left to right.  (The callers
in `deck.py` and `spreads.py` only pass non-empty `old`.) -/
def replaceChars (old new : List Char) (s : List Char) : List Char :=
  match s with
  | [] => []
  | c :: rest =>
    if old.isPrefixOf (c :: rest) && !old.isEmpty then
      new ++ replaceChars old new (rest.drop (old.length - 1))
    else
      c :: replaceChars old new rest
termination_by s.length
decreasing_by
  · simp only [List.length_drop, List.length_cons]
    omega
  · simp only [List.length_cons]
    omega

/-- Python `s.replace(old, new)` on strings. -/
def pyReplace (old new s : String) : String :=
  ⟨replaceChars old.data new.data s.data⟩

/-- Helper for `pyTitle`: Python `str.title()` uppercases a cased character
that follows an uncased one and lowercases the rest (ASCII data). -/
def pyTitleGo : Bool → List Char → List Char
  | _, [] => []
  | prevCased, c :: rest =>
    if c.isAlpha then
      (if prevCased then c.toLower else c.toUpper) :: pyTitleGo true rest
    else
      c :: pyTitleGo false rest

/-- Python `s.title()` (ASCII data). -/
def pyTitle (s : String) : String :=
  ⟨pyTitleGo false s.data⟩

/-! ### Card lookup (`deck.py`, `lookup_card`) -/

/-- The alias table of `lookup_card` in `deck.py` (longer aliases first). -/
def aliases : List (String × String) :=
  [("pents", "pentacles"), ("coins", "pentacles")]

/-- The alias-expansion loop of `lookup_card`: for each `(alias, full)`
pair, substitute `full` for `alias` when `alias` occurs in the search
string and `full` does not already occur (so an already-expanded string is
left alone). -/
def expandAliases (searchLower : String) : String :=
  aliases.foldl
    (fun s af =>
      if pyIn af.1 s && !(pyIn af.2 s) then pyReplace af.1 af.2 s else s)
    searchLower

/-- Result of `lookup_card` in `deck.py`: Python returns `None`, a single
`Card`, or a `list[Card]` of ambiguous matches. -/
inductive LookupResult
  | notFound
  | found (c : Card)
  | ambiguous (cs : List Card)
deriving Repr, DecidableEq

/-- The `matches` local of `lookup_card` in `deck.py` (hoisted to a
definition): the catalog cards whose lowercased name contains the expanded
lowercased search string. -/
def lookupMatches (d : TarotDeck) (searchTerm : String) : List Card :=
  let searchLower := expandAliases (pyLower searchTerm)
  d.cards.filter (fun c => pyIn searchLower (pyLower c.name))

/-- lookup_card from `deck.py`: lowercase the search term, expand aliases,
collect the catalog cards whose lowercased name contains the expanded
string, then apply the result policy: no match gives `None`, a unique
match gives that card, several matches give the first exact
(case-insensitively equal) match when one exists and otherwise the full
ambiguous list. -/
def lookup_card (d : TarotDeck) (searchTerm : String) : LookupResult :=
  let searchLower := expandAliases (pyLower searchTerm)
  match lookupMatches d searchTerm with
  | [] => .notFound
  | [c] => .found c
  | m1 :: m2 :: ms =>
    let exactMatches :=
      (m1 :: m2 :: ms).filter (fun c => pyLower c.name == searchLower)
    match exactMatches with
    | [] => .ambiguous (m1 :: m2 :: ms)
    | e :: _ => .found e

/-! ### Spread layouts (`spreads.py`) -/

/-- SpreadLayout from `spreads.py`: a spread template. -/
structure SpreadLayout where
  name : String
  display_name : String
  positions : List String
  description : String
deriving Repr, DecidableEq

/-- SpreadLayout.card_count from `spreads.py`. -/
def SpreadLayout.card_count (s : SpreadLayout) : Nat :=
  s.positions.length

/-- Error raised by `SpreadLayout.create_reading`: embeds
the ValueError whose f-string message names the spread, the required card count and the given count. -/
inductive SpreadError
  | cardCountMismatch (spreadName : String) (expected : Nat) (actual : Nat)
deriving Repr, DecidableEq

/-- The position-assignment loop of `create_reading`:
`for card, position_name in zip(cards, self.positions)` sets each drawn
`position_meaning` of each card in place; in value semantics the updated cards
are rebuilt by index. -/
def assignPositions (cards : List DrawnCard) (positions : List String) :
    List DrawnCard :=
  (cards.zip positions).map (fun cp => { cp.1 with position_meaning := cp.2 })

/-- Python truthiness of a `str | None` value (`None` and the empty string
are falsy), used by the `if question:` test in `_generate_baseline`. -/
def pyTruthy : Option String → Bool
  | none => false
  | some q => !q.isEmpty

/-- Python `"\n".join(parts)`. -/
def joinWithNewline : List String → String
  | [] => ""
  | [p] => p
  | p :: rest => p ++ "\n" ++ joinWithNewline rest

/-- The per-card section of `_generate_baseline`:
two hash marks, the position meaning, a colon, the card name, the parenthesised orientation word, a newline and the effective meaning. -/
def cardSection (dc : DrawnCard) : String :=
  let orientation := if dc.reversed then "Reversed" else "Upright"
  "## " ++ dc.position_meaning ++ ": " ++ dc.card.name ++ " (" ++ orientation
    ++ ")\n" ++ dc.effective_meaning

/-- The focus line content of `_generate_baseline`:
the focus-area value with underscores replaced by spaces and then title-cased. -/
def focusLabel (f : FocusArea) : String :=
  pyTitle (pyReplace "_" " " f.value)

/-- SpreadLayout._generate_baseline from `spreads.py`: assemble the parts
list (heading, optional question, focus line, blank line, one section per
card) and join with newlines.  A pure function of the layout, the cards,
the focus area and the question. -/
def generate_baseline (s : SpreadLayout) (cards : List DrawnCard)
    (focus_area : FocusArea) (question : Option String) : String :=
  let parts := ["# " ++ s.display_name]
  let parts :=
    if pyTruthy question then
      parts ++ ["\n**Question**: " ++ question.getD ""]
    else parts
  let parts := parts ++ ["**Focus**: " ++ focusLabel focus_area, ""]
  let parts := parts ++ cards.map cardSection
  joinWithNewline parts

/-- SpreadLayout.create_reading from `spreads.py`: check the card count
against the position count, assign position meanings by index, generate
the baseline interpretation from the positioned cards, and build the
Reading with `interpretation=None` and the supplied clock value. -/
def create_reading (s : SpreadLayout) (cards : List DrawnCard)
    (focus_area : FocusArea) (question : Option String) (timestamp : String) :
    Except SpreadError Reading :=
  if cards.length ≠ s.positions.length then
    .error (.cardCountMismatch s.name s.positions.length cards.length)
  else
    let positioned := assignPositions cards s.positions
    let baseline := generate_baseline s positioned focus_area question
    .ok
      { spread_type := s.name
        focus_area := focus_area
        question := question
        cards := positioned
        interpretation := none
        baseline_interpretation := baseline
        timestamp := timestamp }

/-- The `SINGLE_CARD` spread constant from `spreads.py`. -/
def SINGLE_CARD : SpreadLayout :=
  { name := "single_card"
    display_name := "Single Card"
    positions := ["Present"]
    description := "One card for immediate guidance or daily draw" }

/-- The `THREE_CARD` spread constant from `spreads.py`. -/
def THREE_CARD : SpreadLayout :=
  { name := "three_card"
    display_name := "Three Card Spread"
    positions := ["Past", "Present", "Future"]
    description := "Classic three-card timeline spread" }

/-- The `CELTIC_CROSS` spread constant from `spreads.py`. -/
def CELTIC_CROSS : SpreadLayout :=
  { name := "celtic_cross"
    display_name := "Celtic Cross"
    positions :=
      ["Present Situation", "Challenge/Crossing", "Distant Past/Foundation",
       "Recent Past", "Possible Future", "Near Future", "Self Perception",
       "External Influences", "Hopes and Fears", "Outcome"]
    description := "Comprehensive 10-card spread for deep inquiry" }

/-! ### AI interpretation (`ai.py`) -/

/-- Python-level error escaping `interpret_reading`:
`attributeError a` embeds the `AttributeError` that pydantic raises when an
undeclared attribute `a` is read off a `Reading`. -/
inductive PyError
  | attributeError (attrName : String)
deriving Repr, DecidableEq

/-- Attribute read of a string-typed field on a `Reading`, per the field
declarations of `models.py` (`spread_type`, `baseline_interpretation` and
`timestamp` are the `str`-typed fields; the remaining declared fields are
not string-typed and are never read through this helper).  Reading any
undeclared attribute raises `AttributeError`, which is what the pydantic BaseModel attribute lookup does. -/
def readingStrAttr (r : Reading) : String → Except PyError String
  | "spread_type" => .ok r.spread_type
  | "baseline_interpretation" => .ok r.baseline_interpretation
  | "timestamp" => .ok r.timestamp
  | attrName => .error (.attributeError attrName)

/-- Outcome of the awaited `acompletion` call inside `interpret_reading`:
a content string, a `None` content, an `asyncio.TimeoutError`, or any other
exception. -/
inductive ProviderOutcome
  | content (text : String)
  | noContent
  | timeoutError
  | otherError
deriving Repr, DecidableEq

/-- interpret_reading from `ai.py` (provider resolution and config folded
into the `apiKeyTruthy` and `resolvedProvider` arguments, the network call
into `outcome`).  Every fallback path of the source executes
`return reading.static_interpretation`: the missing-key branch directly,
the `None`-content branch inside `try` (whose `AttributeError` is caught by
`except Exception`, whose own handler evaluates the same attribute again),
and both `except` handlers. -/
def interpret_reading (reading : Reading) (apiKeyTruthy : Bool)
    (resolvedProvider : String) (outcome : ProviderOutcome) :
    Except PyError String :=
  if !apiKeyTruthy && !(resolvedProvider == "ollama") then
    readingStrAttr reading "static_interpretation"
  else
    match outcome with
    | .content text => .ok text
    | .noContent => readingStrAttr reading "static_interpretation"
    | .timeoutError => readingStrAttr reading "static_interpretation"
    | .otherError => readingStrAttr reading "static_interpretation"

/-! ### Concrete inputs used by witnesses -/

/-- A concrete catalog card used to build demonstration inputs. -/
def mkCard (i : Nat) : Card :=
  { id := toString i
    name := "card" ++ toString i
    type := if i < 22 then "major" else "minor"
    suit := none
    value := toString i
    value_int := Int.ofNat i
    upright_meaning := "upright meaning " ++ toString i
    reversed_meaning := "reversed meaning " ++ toString i
    description := "imagery " ++ toString i }

/-- The first `n` demonstration cards, already sorted by `value_int`. -/
def demoCards (n : Nat) : List Card :=
  (List.range n).map mkCard

/-- A deck state with 8 cards remaining. -/
def demoDeck8 : TarotDeck :=
  { cards := demoCards 8, remaining := demoCards 8 }

/-- A concrete drawn card used to build demonstration readings. -/
def demoDrawn (i : Nat) : DrawnCard :=
  { card := mkCard i, reversed := false, position := i }

/-- Three concrete drawn cards, as handed to a three-card spread. -/
def demoDrawn3 : List DrawnCard :=
  [demoDrawn 0, demoDrawn 1, demoDrawn 2]

/-! ### The draw loop -/

/-- Behaviour of the draw loop when enough cards remain: it pops exactly the
first `n` cards (in order), leaves the rest, and advances the random-source
cursor by `n`. -/
theorem drawGo_eq (flips : Nat → Bool) :
    ∀ (n i pos : Nat) (rem : List Card), n ≤ rem.length →
      ∃ ds, drawGo flips n i pos rem = some (ds, rem.drop n, pos + n) ∧
        ds.map (fun dc => dc.card) = rem.take n ∧ ds.length = n := by
  intro n
  induction n with
  | zero =>
    intro i pos rem h
    exact ⟨[], rfl, rfl, rfl⟩
  | succ n ih =>
    intro i pos rem h
    cases rem with
    | nil => simp at h
    | cons c rest =>
      obtain ⟨ds, hEq, hMap, hLen⟩ :=
        ih (i + 1) (pos + 1) rest (by simpa using Nat.lt_succ_iff.mp h)
      refine ⟨{ card := c, reversed := flips pos, position := i,
                position_meaning := "" } :: ds, ?_, ?_, ?_⟩
      · simp only [drawGo, hEq]
        have hps : pos + 1 + n = pos + (n + 1) := by omega
        rw [hps]
        rfl
      · simpa using hMap
      · simpa using hLen

/-- C7.  For every deck state, `draw(count)` fails exactly when `count`
exceeds the number of remaining cards, and the error then reports both the
requested count and the number of cards actually available. -/
theorem draw_fails_iff_insufficient (d : TarotDeck) (count : Nat)
    (flips : Nat → Bool) (pos : Nat) :
    ((draw d count flips pos).1 =
        Except.error (DrawError.insufficient count d.remaining.length) ↔
      d.remaining.length < count) ∧
    (count ≤ d.remaining.length →
      ∃ ds, (draw d count flips pos).1 = Except.ok ds) := by
  constructor
  · constructor
    · intro hEq
      by_contra hlt
      push_neg at hlt
      obtain ⟨ds, h1, -, -⟩ := drawGo_eq flips count 0 pos d.remaining hlt
      unfold draw at hEq
      rw [if_neg (by omega), h1] at hEq
      simp at hEq
    · intro hlt
      unfold draw
      rw [if_pos hlt]
  · intro hle
    obtain ⟨ds, h1, -, -⟩ := drawGo_eq flips count 0 pos d.remaining hle
    unfold draw
    rw [if_neg (by omega), h1]
    exact ⟨ds, rfl⟩

/-- Witness for C7 at concrete inputs: drawing 10 from an 8-card remainder
fails reporting 10 requested and 8 available; drawing 3 succeeds. -/
theorem draw_fails_iff_insufficient_witness :
    demoDeck8.remaining.length = 8 ∧
    (draw demoDeck8 10 (fun _ => false) 0).1 =
      Except.error (DrawError.insufficient 10 demoDeck8.remaining.length) ∧
    ∃ ds, (draw demoDeck8 3 (fun _ => false) 0).1 = Except.ok ds :=
  ⟨by decide,
   (draw_fails_iff_insufficient demoDeck8 10 (fun _ => false) 0).1.mpr
     (by decide),
   (draw_fails_iff_insufficient demoDeck8 3 (fun _ => false) 0).2 (by decide)⟩

/-- C10.  A failing `draw(count)` call is atomic: when `count` exceeds the
number of remaining cards, the error is raised before any card is popped
and before any orientation is sampled, so the deck state and the
random-source cursor are returned exactly as they were. -/
theorem draw_insufficient_is_atomic (d : TarotDeck) (count : Nat)
    (flips : Nat → Bool) (pos : Nat)
    (h : d.remaining.length < count) :
    draw d count flips pos =
      (Except.error (DrawError.insufficient count d.remaining.length), d, pos) := by
  unfold draw
  rw [if_pos h]

/-- Witness for C10 at concrete inputs: asking 10 cards of an 8-card
remainder returns the insufficient-cards error together with the untouched
deck and cursor. -/
theorem draw_insufficient_is_atomic_witness :
    demoDeck8.remaining.length = 8 ∧
    draw demoDeck8 10 (fun _ => false) 0 =
      (Except.error (DrawError.insufficient 10 demoDeck8.remaining.length),
        demoDeck8, 0) :=
  ⟨by decide, draw_insufficient_is_atomic demoDeck8 10 (fun _ => false) 0 (by decide)⟩

/-- C6.  `create_reading` succeeds exactly when the card count equals the
position count of the spread, and on a mismatch the error carries the spread
name, the expected count (the position count named in the message) and the
actual count. -/
theorem create_reading_count_check (s : SpreadLayout) (cards : List DrawnCard)
    (f : FocusArea) (q : Option String) (ts : String) :
    ((∃ r, create_reading s cards f q ts = Except.ok r) ↔
      cards.length = s.positions.length) ∧
    (cards.length ≠ s.positions.length →
      create_reading s cards f q ts =
        Except.error
          (SpreadError.cardCountMismatch s.name s.positions.length cards.length)) := by
  constructor
  · constructor
    · intro ⟨r, hr⟩
      by_contra hne
      unfold create_reading at hr
      rw [if_pos hne] at hr
      exact absurd hr (by simp)
    · intro heq
      unfold create_reading
      rw [if_neg (by simp [heq])]
      exact ⟨_, rfl⟩
  · intro hne
    unfold create_reading
    rw [if_pos hne]

/-- Witness for C6 at concrete inputs: one card given to the three-card
spread fails naming the expected count 3, and three cards succeed. -/
theorem create_reading_count_check_witness :
    THREE_CARD.positions.length = 3 ∧
    create_reading THREE_CARD [demoDrawn 0] FocusArea.career none "t" =
      Except.error (SpreadError.cardCountMismatch THREE_CARD.name
        THREE_CARD.positions.length 1) ∧
    ∃ r, create_reading THREE_CARD demoDrawn3 FocusArea.career none "t" =
      Except.ok r :=
  ⟨by decide,
   (create_reading_count_check THREE_CARD [demoDrawn 0] FocusArea.career none
       "t").2 (by decide),
   (create_reading_count_check THREE_CARD demoDrawn3 FocusArea.career none
       "t").1.mpr (by decide)⟩

/-- C5.  A successful `create_reading` returns a Reading whose cards are
the given cards in draw order, where the card at index `i` has received
`positions[i]` as its `position_meaning` (all other fields untouched), and
whose `interpretation` field is unset. -/
theorem create_reading_assigns_positions (s : SpreadLayout)
    (cards : List DrawnCard) (f : FocusArea) (q : Option String) (ts : String)
    (r : Reading) (hok : create_reading s cards f q ts = Except.ok r) :
    r.interpretation = none ∧
    r.cards.length = cards.length ∧
    ∀ (i : Nat) (hr : i < r.cards.length) (hc : i < cards.length)
      (hp : i < s.positions.length),
      r.cards.get ⟨i, hr⟩ =
        { cards.get ⟨i, hc⟩ with position_meaning := s.positions.get ⟨i, hp⟩ } := by
  unfold create_reading at hok
  by_cases hne : cards.length ≠ s.positions.length
  · rw [if_pos hne] at hok
    exact absurd hok (by simp)
  · push_neg at hne
    rw [if_neg (fun hcon => hcon hne)] at hok
    injection hok with h
    subst h
    refine ⟨rfl, ?_, ?_⟩
    · simp [assignPositions, ← hne]
    · intro i hr hc hp
      simp [assignPositions, List.get_eq_getElem, List.getElem_map,
        List.getElem_zip]

/-- The three demonstration cards after position assignment by the
three-card spread. -/
def demoPositioned3 : List DrawnCard :=
  assignPositions demoDrawn3 THREE_CARD.positions

/-- The Reading produced by the three-card spread on the demonstration
cards. -/
def demoReading3 : Reading :=
  { spread_type := THREE_CARD.name
    focus_area := FocusArea.career
    question := none
    cards := demoPositioned3
    interpretation := none
    baseline_interpretation :=
      generate_baseline THREE_CARD demoPositioned3 FocusArea.career none
    timestamp := "t" }

/-- Witness for C5 at concrete inputs: a three-card reading on draw order
card0, card1, card2 leaves `interpretation` unset and gives the second
card the label Present (the three-card labels being Past, Present,
Future). -/
theorem create_reading_assigns_positions_witness :
    demoReading3.interpretation = none ∧
    demoReading3.cards.length = 3 ∧
    demoReading3.cards.get ⟨1, by decide⟩ =
      { demoDrawn3.get ⟨1, by decide⟩ with position_meaning := "Present" } := by
  have h := create_reading_assigns_positions THREE_CARD demoDrawn3
    FocusArea.career none "t" demoReading3 rfl
  exact ⟨h.1, h.2.1, h.2.2 1 (by decide) (by decide) (by decide)⟩

/-- C2.  After `shuffle()` (the random permutation supplied as an oracle)
followed by `draw(n)` on a valid 78-card catalog with distinct ids and
any `n ≤ 78`, the draw succeeds, the drawn ids are disjoint from the ids
of the cards still remaining, and `draw(78)` returns every catalog card
exactly once (a permutation of the catalog) leaving nothing behind. -/
theorem shuffle_draw_without_replacement (d : TarotDeck)
    (shuffled : List Card) (flips : Nat → Bool) (pos n : Nat)
    (hperm : shuffled.Perm d.cards)
    (hids : (d.cards.map Card.id).Nodup)
    (hcount : d.cards.length = 78)
    (hn : n ≤ 78) :
    ∃ ds pos2,
      draw (shuffle d shuffled) n flips pos =
        (Except.ok ds, { d with remaining := shuffled.drop n }, pos2) ∧
      List.Disjoint (ds.map (fun dc => dc.card.id))
        ((shuffled.drop n).map Card.id) ∧
      (n = 78 →
        (ds.map (fun dc => dc.card)).Perm d.cards ∧ shuffled.drop n = []) := by
  have hlen : shuffled.length = 78 := hperm.length_eq.trans hcount
  have hnle : n ≤ shuffled.length := by omega
  obtain ⟨ds, hEq, hMap, hLen⟩ := drawGo_eq flips n 0 pos shuffled hnle
  have hshufNodup : (shuffled.map Card.id).Nodup :=
    ((hperm.map Card.id).nodup_iff).mpr hids
  refine ⟨ds, pos + n, ?_, ?_, ?_⟩
  · unfold draw
    have hrem : (shuffle d shuffled).remaining = shuffled := rfl
    rw [hrem, if_neg (by omega), hEq]
    rfl
  · have hsplit : shuffled.map Card.id =
        (shuffled.take n).map Card.id ++ (shuffled.drop n).map Card.id := by
      rw [← List.map_append, List.take_append_drop]
    rw [hsplit] at hshufNodup
    have hdisj := (List.nodup_append.mp hshufNodup).2.2
    have hmm : ds.map (fun dc => dc.card.id) = (shuffled.take n).map Card.id := by
      rw [← hMap, List.map_map]
      rfl
    rw [hmm]
    exact hdisj
  · intro h78
    subst h78
    have htake : shuffled.take 78 = shuffled := List.take_of_length_le (by omega)
    have hdrop : shuffled.drop 78 = [] := List.drop_eq_nil_of_le (by omega)
    constructor
    · rw [hMap, htake]
      exact hperm
    · exact hdrop

/-- A full 78-card demonstration deck with distinct ids. -/
def demoDeck78 : TarotDeck :=
  { cards := demoCards 78, remaining := demoCards 78 }

/-- Witness for C2 at concrete inputs: on the 78-card demonstration deck
with the identity permutation as the shuffle oracle, drawing 2 cards
succeeds with drawn ids disjoint from the remaining ids. -/
theorem shuffle_draw_without_replacement_witness :
    ∃ ds pos2,
      draw (shuffle demoDeck78 demoDeck78.cards) 2 (fun _ => false) 0 =
        (Except.ok ds,
          { demoDeck78 with remaining := demoDeck78.cards.drop 2 }, pos2) ∧
      List.Disjoint (ds.map (fun dc => dc.card.id))
        ((demoDeck78.cards.drop 2).map Card.id) ∧
      (2 = 78 →
        (ds.map (fun dc => dc.card)).Perm demoDeck78.cards ∧
          demoDeck78.cards.drop 2 = []) :=
  shuffle_draw_without_replacement demoDeck78 demoDeck78.cards
    (fun _ => false) 0 2 (List.Perm.refl _) (by decide) (by decide) (by decide)

/-! ### The catalog loader -/

/-- The cards carried by the successfully-validated lines of an input, in
file order. -/
def okCards (lines : List LineResult) : List Card :=
  lines.filterMap (fun r => match r with | .ok c => some c | _ => none)

/-- The line loop succeeds exactly on inputs whose every line validates,
and then returns the validated cards in file order. -/
theorem parseLines_ok_iff :
    ∀ (lines : List LineResult) (k : Nat) (cs : List Card),
      parseLines k lines = Except.ok cs ↔ lines = cs.map LineResult.ok := by
  intro lines
  induction lines with
  | nil =>
    intro k cs
    cases cs <;> simp [parseLines]
  | cons r rest ih =>
    intro k cs
    cases r with
    | jsonError => cases cs <;> simp [parseLines]
    | validationError => cases cs <;> simp [parseLines]
    | ok c =>
      cases hp : parseLines (k + 1) rest with
      | error e =>
        cases cs with
        | nil => simp [parseLines, hp, Except.map]
        | cons c2 cs2 =>
          have hne : rest ≠ cs2.map LineResult.ok := by
            intro hcon
            have := (ih (k + 1) cs2).mpr hcon
            rw [hp] at this
            exact absurd this (by simp)
          simp [parseLines, hp, Except.map, hne]
      | ok ds =>
        have hrest := (ih (k + 1) ds).mp hp
        cases cs with
        | nil => simp [parseLines, hp, Except.map]
        | cons c2 cs2 =>
          constructor
          · intro h
            simp [parseLines, hp, Except.map] at h
            rw [hrest, ← h.1, ← h.2]
            simp
          · intro h
            simp at h
            obtain ⟨hc, hcs⟩ := h
            have : parseLines (k + 1) rest = Except.ok cs2 :=
              (ih (k + 1) cs2).mpr hcs
            rw [hp] at this
            simp at this
            simp [parseLines, hp, Except.map, hc, this]

/-- Splitting the line loop over a prefix of validated lines: the loop
walks the prefix, advances the line counter past it, and prepends its
cards to whatever the rest of the input yields. -/
theorem parseLines_append_ok :
    ∀ (cs : List Card) (k : Nat) (tail : List LineResult),
      parseLines k (cs.map LineResult.ok ++ tail) =
        (parseLines (k + cs.length) tail).map (fun ds => cs ++ ds) := by
  intro cs
  induction cs with
  | nil =>
    intro k tail
    cases h : parseLines k tail <;> simp [h, Except.map]
  | cons c cs2 ih =>
    intro k tail
    have harith : k + 1 + cs2.length = k + (cs2.length + 1) := by omega
    cases h : parseLines (k + (cs2.length + 1)) tail with
    | error e =>
      have h2 := ih (k + 1) tail
      rw [harith, h] at h2
      simp [Except.map] at h2
      simp [parseLines, h2, Except.map, h]
    | ok ds =>
      have h2 := ih (k + 1) tail
      rw [harith, h] at h2
      simp [Except.map] at h2
      simp [parseLines, h2, Except.map, h]

/-- C3 counterexample.  A line that is valid JSON but fails Card field
validation does not produce the line-number-carrying parse error the claim
requires: the validation error propagates without any captured line
number. -/
theorem load_validation_error_has_no_line_number :
    loadDeck [LineResult.validationError] = Except.error LoadError.validation ∧
    ∀ n, loadDeck [LineResult.validationError] ≠
      Except.error (LoadError.invalidJson n) := by
  constructor
  · rfl
  · intro n h
    simp [loadDeck, parseLines, Bind.bind, Except.bind] at h

/-- C3 (amended).  Catalog load fails with a parse error carrying the
1-based offending line number when the first bad line is invalid JSON;
when the first bad line is valid JSON but fails Card field validation, the
validation error itself escapes, without a captured line number; when
every line validates, load fails with a size error carrying the record
count whenever that count is not 78, and succeeds on a 78-record input. -/
theorem loadDeck_error_spec (cs : List Card) (rest : List LineResult) :
    loadDeck (cs.map LineResult.ok ++ LineResult.jsonError :: rest) =
      Except.error (LoadError.invalidJson (cs.length + 1)) ∧
    loadDeck (cs.map LineResult.ok ++ LineResult.validationError :: rest) =
      Except.error LoadError.validation ∧
    (cs.length ≠ 78 →
      loadDeck (cs.map LineResult.ok) =
        Except.error (LoadError.wrongCount cs.length)) ∧
    (cs.length = 78 →
      ∃ d, loadDeck (cs.map LineResult.ok) = Except.ok d) := by
  have hsplit1 := parseLines_append_ok cs 1 (LineResult.jsonError :: rest)
  have hsplit2 := parseLines_append_ok cs 1 (LineResult.validationError :: rest)
  have hsplit3 : parseLines 1 (cs.map LineResult.ok) =
      (parseLines (1 + cs.length) []).map (fun ds => cs ++ ds) := by
    simpa using parseLines_append_ok cs 1 []
  have harith : 1 + cs.length = cs.length + 1 := by omega
  refine ⟨?_, ?_, ?_, ?_⟩
  · rw [loadDeck, hsplit1, harith]
    rfl
  · rw [loadDeck, hsplit2, harith]
    rfl
  · intro h78
    rw [loadDeck, hsplit3]
    simp only [parseLines, Except.map, Bind.bind, Except.bind]
    simp [h78, throw, throwThe, MonadExceptOf.throw]
  · intro h78
    rw [loadDeck, hsplit3]
    simp only [parseLines, Except.map, Bind.bind, Except.bind]
    simp [h78, pure, Except.pure]

/-- Witness for C3 at concrete inputs: a lone invalid-JSON line fails at
line 1; two valid records before an invalid-JSON line fail at line 3; two
valid records alone fail the size check with count 2; 78 valid records
load. -/
theorem loadDeck_error_spec_witness :
    loadDeck [LineResult.jsonError] =
      Except.error (LoadError.invalidJson 1) ∧
    loadDeck ((demoCards 2).map LineResult.ok ++ [LineResult.jsonError]) =
      Except.error (LoadError.invalidJson 3) ∧
    loadDeck ((demoCards 2).map LineResult.ok) =
      Except.error (LoadError.wrongCount 2) ∧
    ∃ d, loadDeck ((demoCards 78).map LineResult.ok) = Except.ok d := by
  refine ⟨?_, ?_, ?_, ?_⟩
  · exact (loadDeck_error_spec [] []).1
  · exact (loadDeck_error_spec (demoCards 2) []).1
  · exact (loadDeck_error_spec (demoCards 2) []).2.2.1 (by decide)
  · exact (loadDeck_error_spec (demoCards 78) []).2.2.2 (by decide)

/-- C9.  A successful catalog load yields exactly 78 records, sorted by
`value_int` ascending; the loaded ids are distinct whenever the input
ids of the input records are; `remaining` starts as exactly that sorted sequence, and
`reset()` restores `remaining` to it with no randomisation. -/
theorem load_sorted_unique_reset (lines : List LineResult) (d : TarotDeck)
    (hok : loadDeck lines = Except.ok d) :
    d.cards.length = 78 ∧
    d.cards.Pairwise (fun a b => a.value_int ≤ b.value_int) ∧
    (((okCards lines).map Card.id).Nodup → (d.cards.map Card.id).Nodup) ∧
    d.remaining = d.cards ∧
    reset d = { d with remaining := d.cards } := by
  rw [loadDeck] at hok
  cases hp : parseLines 1 lines with
  | error e =>
    rw [hp] at hok
    exact absurd hok (by simp [Bind.bind, Except.bind])
  | ok cs =>
    rw [hp] at hok
    simp only [Bind.bind, Except.bind] at hok
    by_cases h78 : cs.length ≠ 78
    · rw [if_pos h78] at hok
      exact absurd hok (by simp [throw, throwThe, MonadExceptOf.throw])
    · push_neg at h78
      rw [if_neg (fun hcon => hcon h78)] at hok
      simp only [pure, Except.pure] at hok
      injection hok with h
      subst h
      have hperm := List.mergeSort_perm cs
        (fun a b => a.value_int ≤ b.value_int)
      have hlines : lines = cs.map LineResult.ok := (parseLines_ok_iff _ _ _).mp hp
      have hocs : okCards lines = cs := by
        rw [hlines]
        simp [okCards, List.filterMap_map]
        exact List.filterMap_some cs
      refine ⟨?_, ?_, ?_, rfl, rfl⟩
      · simpa [hperm.length_eq] using h78
      · have hs := @List.sorted_mergeSort Card
          (fun a b : Card => decide (a.value_int ≤ b.value_int))
          (fun a b c hab hbc => by
            simp only [decide_eq_true_eq] at *
            exact le_trans hab hbc)
          (fun a b => by
            simp only [Bool.or_eq_true, decide_eq_true_eq]
            exact le_total a.value_int b.value_int)
          cs
        simpa using hs
      · intro hnd
        rw [hocs] at hnd
        exact ((hperm.map Card.id).nodup_iff).mpr hnd

/-- The 78 demonstration records as loader input lines. -/
def demoLines78 : List LineResult :=
  (demoCards 78).map LineResult.ok

/-- Witness for C9 at concrete inputs: the 78 demonstration records load
into a 78-card deck, sorted by `value_int`, with distinct ids, whose
`remaining` is the sorted catalog and is restored by `reset`. -/
theorem load_sorted_unique_reset_witness :
    demoDeck78.cards.length = 78 ∧
    demoDeck78.cards.Pairwise (fun a b => a.value_int ≤ b.value_int) ∧
    (demoDeck78.cards.map Card.id).Nodup ∧
    demoDeck78.remaining = demoDeck78.cards ∧
    reset demoDeck78 = { demoDeck78 with remaining := demoDeck78.cards } := by
  have hload : loadDeck demoLines78 = Except.ok demoDeck78 := by
    have hparse : parseLines 1 demoLines78 = Except.ok (demoCards 78) :=
      (parseLines_ok_iff demoLines78 1 (demoCards 78)).mpr rfl
    have hsorted : (demoCards 78).Pairwise
        (fun a b : Card => decide (a.value_int ≤ b.value_int)) := by decide
    rw [loadDeck, hparse]
    simp only [Bind.bind, Except.bind, List.mergeSort_of_sorted hsorted]
    norm_num [pure, Except.pure]
    rfl
  have h := load_sorted_unique_reset demoLines78 demoDeck78 hload
  exact ⟨h.1, h.2.1, h.2.2.1 (by decide), h.2.2.2.1, h.2.2.2.2⟩

/-- Reading the undeclared `static_interpretation` attribute raises
`AttributeError`. -/
theorem readingStrAttr_static (r : Reading) :
    readingStrAttr r "static_interpretation" =
      Except.error (PyError.attributeError "static_interpretation") := rfl

/-- C1.  Contrary to the claim, every interpretation-provider failure path
of `interpret_reading` evaluates `reading.static_interpretation`, an
attribute the `Reading` model of `models.py` does not declare (its field is
`baseline_interpretation`), so the call raises `AttributeError` instead of
returning the baseline text: the failure is propagated, and the result is
never the `baseline_interpretation` of the Reading. -/
theorem interpret_reading_failure_raises (r : Reading) (apiKeyTruthy : Bool)
    (resolvedProvider : String) :
    interpret_reading r apiKeyTruthy resolvedProvider
        ProviderOutcome.timeoutError =
      Except.error (PyError.attributeError "static_interpretation") ∧
    interpret_reading r apiKeyTruthy resolvedProvider
        ProviderOutcome.otherError =
      Except.error (PyError.attributeError "static_interpretation") ∧
    interpret_reading r apiKeyTruthy resolvedProvider
        ProviderOutcome.timeoutError ≠
      Except.ok r.baseline_interpretation := by
  unfold interpret_reading
  by_cases hc : (!apiKeyTruthy && !(resolvedProvider == "ollama")) = true
  · rw [if_pos hc, readingStrAttr_static]
    exact ⟨rfl, rfl, by simp⟩
  · rw [if_neg hc]
    exact ⟨readingStrAttr_static r, readingStrAttr_static r, by
      rw [readingStrAttr_static]
      simp⟩

/-! ### String containment lemmas -/

/-- Appending strings concatenates their character data. -/
theorem strData_append (a b : String) : (a ++ b).data = a.data ++ b.data := rfl

/-- A list is a Boolean prefix of itself extended by anything. -/
theorem isPrefixOf_append_self : ∀ (n t : List Char),
    n.isPrefixOf (n ++ t) = true := by
  intro n
  induction n with
  | nil => intro t; simp [List.isPrefixOf]
  | cons a as ih => intro t; simp [List.isPrefixOf]

/-- A Boolean prefix stays a prefix after extending the larger list. -/
theorem isPrefixOf_extend : ∀ (n h g : List Char),
    n.isPrefixOf h = true → n.isPrefixOf (h ++ g) = true := by
  intro n
  induction n with
  | nil => intro h g _; simp [List.isPrefixOf]
  | cons a as ih =>
    intro h g hp
    cases h with
    | nil => simp [List.isPrefixOf] at hp
    | cons b bs =>
      simp only [List.isPrefixOf, Bool.and_eq_true] at hp ⊢
      exact ⟨hp.1, ih bs g hp.2⟩

/-- The empty needle occurs in every string. -/
theorem sublistContains_nil_needle : ∀ (h : List Char),
    sublistContains [] h = true := by
  intro h
  cases h <;> simp [sublistContains, List.isPrefixOf]

/-- An occurrence survives prepending to the haystack. -/
theorem sublistContains_append_left : ∀ (g h n : List Char),
    sublistContains n h = true → sublistContains n (g ++ h) = true := by
  intro g
  induction g with
  | nil => intro h n hn; simpa using hn
  | cons c g2 ih =>
    intro h n hn
    simp only [List.cons_append, sublistContains, Bool.or_eq_true]
    exact Or.inr (ih h n hn)

/-- An occurrence survives appending to the haystack. -/
theorem sublistContains_append_right : ∀ (h n g : List Char),
    sublistContains n h = true → sublistContains n (h ++ g) = true := by
  intro h
  induction h with
  | nil =>
    intro n g hn
    simp only [sublistContains, List.isEmpty_iff] at hn
    subst hn
    exact sublistContains_nil_needle g
  | cons c t ih =>
    intro n g hn
    simp only [sublistContains, Bool.or_eq_true] at hn
    simp only [List.cons_append, sublistContains, Bool.or_eq_true]
    cases hn with
    | inl hp =>
      exact Or.inl (by simpa [List.cons_append] using
        isPrefixOf_extend n (c :: t) g hp)
    | inr hrest => exact Or.inr (ih n g hrest)

/-- A string occurs in itself extended on the right. -/
theorem sublistContains_self_append (n suf : List Char) :
    sublistContains n (n ++ suf) = true := by
  cases hns : n ++ suf with
  | nil =>
    have hn : n = [] := by
      cases n with
      | nil => rfl
      | cons a as => simp at hns
    simp [hn, sublistContains]
  | cons c t =>
    rw [sublistContains, ← hns]
    simp [isPrefixOf_append_self]

/-- A string occurs in any haystack that surrounds it. -/
theorem sublistContains_surround (pre n suf : List Char) :
    sublistContains n (pre ++ (n ++ suf)) = true :=
  sublistContains_append_left pre (n ++ suf) n
    (sublistContains_self_append n suf)

/-- An occurrence inside one part survives joining the parts with
newlines. -/
theorem sublistContains_joinWithNewline :
    ∀ (l : List String) (p : String) (x : List Char), p ∈ l →
      sublistContains x p.data = true →
      sublistContains x (joinWithNewline l).data = true := by
  intro l
  induction l with
  | nil => intro p x hp; simp at hp
  | cons q rest ih =>
    intro p x hp hx
    cases rest with
    | nil =>
      have : p = q := by simpa using hp
      subst this
      simpa [joinWithNewline] using hx
    | cons r rs =>
      rcases List.mem_cons.mp hp with hpq | hptail
      · subst hpq
        show sublistContains x (p ++ "\n" ++ joinWithNewline (r :: rs)).data = true
        rw [strData_append, strData_append]
        rw [List.append_assoc]
        exact sublistContains_append_right p.data x _ hx
      · show sublistContains x (q ++ "\n" ++ joinWithNewline (r :: rs)).data = true
        rw [strData_append]
        exact sublistContains_append_left _ _ x (ih p x hptail hx)

/-- Python `in` holds for the middle component of a three-part
concatenation. -/
theorem pyIn_mid (pre mid suf : String) :
    pyIn mid (pre ++ mid ++ suf) = true := by
  show sublistContains mid.data (pre ++ mid ++ suf).data = true
  rw [strData_append, strData_append, List.append_assoc]
  exact sublistContains_surround pre.data mid.data suf.data

/-- The per-card section of the baseline text contains the name of the card. -/
theorem cardSection_has_name (dc : DrawnCard) :
    sublistContains dc.card.name.data (cardSection dc).data = true := by
  show sublistContains dc.card.name.data
    ("## " ++ dc.position_meaning ++ ": " ++ dc.card.name ++ " ("
      ++ (if dc.reversed then "Reversed" else "Upright")
      ++ ")\n" ++ dc.effective_meaning).data = true
  simp only [strData_append, List.append_assoc]
  exact sublistContains_append_left _ _ _
    (sublistContains_append_left _ _ _
      (sublistContains_append_left _ _ _ (sublistContains_self_append _ _)))

/-- The per-card section of the baseline text contains the assigned
position label of the card. -/
theorem cardSection_has_position_meaning (dc : DrawnCard) :
    sublistContains dc.position_meaning.data (cardSection dc).data = true := by
  show sublistContains dc.position_meaning.data
    ("## " ++ dc.position_meaning ++ ": " ++ dc.card.name ++ " ("
      ++ (if dc.reversed then "Reversed" else "Upright")
      ++ ")\n" ++ dc.effective_meaning).data = true
  simp only [strData_append, List.append_assoc]
  exact sublistContains_append_left _ _ _ (sublistContains_self_append _ _)

/-- The baseline text is the newline-join of a parts list that ends with
one section per card. -/
theorem generate_baseline_parts (s : SpreadLayout) (cards : List DrawnCard)
    (f : FocusArea) (q : Option String) :
    ∃ pp, generate_baseline s cards f q =
      joinWithNewline (pp ++ cards.map cardSection) :=
  ⟨_, rfl⟩

/-- C4.  Baseline generation is a pure function of the layout, the cards,
the focus area and the question (identical inputs give byte-identical
text), and its output contains, for every drawn card, both the name of the card
and its assigned position label (Python substring containment). -/
theorem generate_baseline_pure_and_mentions (s : SpreadLayout)
    (cards cards2 : List DrawnCard) (f f2 : FocusArea)
    (q q2 : Option String)
    (hc : cards2 = cards) (hf : f2 = f) (hq : q2 = q) :
    generate_baseline s cards2 f2 q2 = generate_baseline s cards f q ∧
    ∀ dc ∈ cards,
      pyIn dc.card.name (generate_baseline s cards f q) = true ∧
      pyIn dc.position_meaning (generate_baseline s cards f q) = true := by
  refine ⟨by rw [hc, hf, hq], ?_⟩
  intro dc hdc
  obtain ⟨pp, hpp⟩ := generate_baseline_parts s cards f q
  have hmem : cardSection dc ∈ pp ++ cards.map cardSection :=
    List.mem_append_right pp (List.mem_map_of_mem cardSection hdc)
  constructor
  · show sublistContains dc.card.name.data (generate_baseline s cards f q).data = true
    rw [hpp]
    exact sublistContains_joinWithNewline _ _ _ hmem (cardSection_has_name dc)
  · show sublistContains dc.position_meaning.data
      (generate_baseline s cards f q).data = true
    rw [hpp]
    exact sublistContains_joinWithNewline _ _ _ hmem
      (cardSection_has_position_meaning dc)

/-- Witness for C4 at concrete inputs: the baseline of the demonstration
three-card reading contains the name of the second card and its Present
label. -/
theorem generate_baseline_pure_and_mentions_witness :
    pyIn (demoPositioned3.get ⟨1, by decide⟩).card.name
      (generate_baseline THREE_CARD demoPositioned3 FocusArea.career none)
      = true ∧
    pyIn (demoPositioned3.get ⟨1, by decide⟩).position_meaning
      (generate_baseline THREE_CARD demoPositioned3 FocusArea.career none)
      = true := by
  have h := generate_baseline_pure_and_mentions THREE_CARD demoPositioned3
    demoPositioned3 FocusArea.career FocusArea.career none none rfl rfl rfl
  exact h.2 (demoPositioned3.get ⟨1, by decide⟩) (by decide)

/-! ### Lookup policy -/

/-- The match list is a sublist of the catalog. -/
theorem lookupMatches_sublist (d : TarotDeck) (term : String) :
    List.Sublist (lookupMatches d term) d.cards := by
  simp only [lookupMatches]
  exact List.filter_sublist d.cards

/-- Filtering a list for a key value keeps exactly one known element when
the keys are distinct. -/
theorem filter_beq_eq_singleton {α β : Type} [DecidableEq β] (g : α → β) :
    ∀ (l : List α) (c : α) (v : β), (l.map g).Nodup → c ∈ l → g c = v →
      l.filter (fun x => g x == v) = [c] := by
  intro l
  induction l with
  | nil => intro c v _ hc _; simp at hc
  | cons a t ih =>
    intro c v hnd hc hgc
    simp only [List.map_cons, List.nodup_cons] at hnd
    obtain ⟨hna, hnt⟩ := hnd
    rcases List.mem_cons.mp hc with hca | hct
    · subst hca
      have htail : t.filter (fun x => g x == v) = [] := by
        refine List.filter_eq_nil_iff.mpr ?_
        intro x hx hxv
        rw [beq_iff_eq] at hxv
        exact hna ((hxv.trans hgc.symm) ▸ List.mem_map_of_mem g hx)
      rw [List.filter_cons]
      simp [hgc, htail]
    · have hga : (g a == v) = false := by
        rw [beq_eq_false_iff_ne]
        intro hav
        exact hna (List.mem_map.mpr ⟨c, hct, hgc.trans hav.symm⟩)
      rw [List.filter_cons, hga]
      simp only [Bool.false_eq_true, if_false]
      exact ih c v hnt hct hgc

/-- In the multi-match branch with no exact match, `lookup_card` returns
the whole ambiguous match list. -/
theorem lookup_card_no_exact (d : TarotDeck) (term : String)
    (h2 : 2 ≤ (lookupMatches d term).length)
    (hne : ∀ c ∈ lookupMatches d term,
      pyLower c.name ≠ expandAliases (pyLower term)) :
    lookup_card d term = LookupResult.ambiguous (lookupMatches d term) := by
  rcases hl : lookupMatches d term with _ | ⟨m1, _ | ⟨m2, ms⟩⟩
  · rw [hl] at h2; simp at h2
  · rw [hl] at h2; simp at h2
  · have hfil : (m1 :: m2 :: ms).filter
        (fun c => pyLower c.name == expandAliases (pyLower term)) = [] := by
      refine List.filter_eq_nil_iff.mpr ?_
      intro x hx hxv
      rw [beq_iff_eq] at hxv
      exact hne x (hl ▸ hx) hxv
    simp only [lookup_card, hl, hfil]

/-- In the multi-match branch with an exact match under distinct
lowercased names, `lookup_card` returns that exact match. -/
theorem lookup_card_exact (d : TarotDeck) (term : String) (c : Card)
    (hnames : (d.cards.map (fun x => pyLower x.name)).Nodup)
    (h2 : 2 ≤ (lookupMatches d term).length)
    (hmem : c ∈ lookupMatches d term)
    (hexact : pyLower c.name = expandAliases (pyLower term)) :
    lookup_card d term = LookupResult.found c := by
  rcases hl : lookupMatches d term with _ | ⟨m1, _ | ⟨m2, ms⟩⟩
  · rw [hl] at h2; simp at h2
  · rw [hl] at h2; simp at h2
  · have hsub : List.Sublist (m1 :: m2 :: ms) d.cards :=
      hl ▸ lookupMatches_sublist d term
    have hnodup : ((m1 :: m2 :: ms).map (fun x => pyLower x.name)).Nodup :=
      List.Nodup.sublist (hsub.map (fun x => pyLower x.name)) hnames
    have hfil := filter_beq_eq_singleton (fun x => pyLower x.name)
      (m1 :: m2 :: ms) c (expandAliases (pyLower term)) hnodup (hl ▸ hmem)
      hexact
    simp only [lookup_card, hl, hfil]

/-- A lowercased string is empty only for the empty string. -/
theorem pyLower_eq_empty_iff (s : String) : pyLower s = "" ↔ s = "" := by
  constructor
  · intro h
    have hdata : s.data.map Char.toLower = [] := congrArg String.data h
    have : s.data = [] := List.map_eq_nil_iff.mp hdata
    cases s
    simp at this
    simp [this]
  · intro h
    subst h
    rfl

/-- On the empty search string, every card matches. -/
theorem lookupMatches_empty_term (d : TarotDeck) :
    lookupMatches d "" = d.cards := by
  have hexp : expandAliases (pyLower "") = "" := rfl
  simp only [lookupMatches, hexp]
  refine List.filter_eq_self.mpr ?_
  intro c hc
  exact sublistContains_nil_needle (pyLower c.name).data

/-- C8.  Card lookup over the full catalog (lowercasing and at-most-once
alias expansion folded into the match list) returns: the not-found signal
when no card name contains the expanded search string; the unique card
when exactly one does; the exact match preferentially when several names
contain the string but one equals it case-insensitively; otherwise the
full ambiguous match list; and on the empty search string the full
78-entry catalog. -/
theorem lookup_card_result_policy (d : TarotDeck) (term : String)
    (hnames : (d.cards.map (fun x => pyLower x.name)).Nodup)
    (hnonempty : ∀ c ∈ d.cards, c.name ≠ "")
    (hsize : d.cards.length = 78) :
    (lookupMatches d term = [] →
      lookup_card d term = LookupResult.notFound) ∧
    (∀ c, lookupMatches d term = [c] →
      lookup_card d term = LookupResult.found c) ∧
    (∀ c, 2 ≤ (lookupMatches d term).length → c ∈ lookupMatches d term →
      pyLower c.name = expandAliases (pyLower term) →
      lookup_card d term = LookupResult.found c) ∧
    (2 ≤ (lookupMatches d term).length →
      (∀ c ∈ lookupMatches d term,
        pyLower c.name ≠ expandAliases (pyLower term)) →
      lookup_card d term = LookupResult.ambiguous (lookupMatches d term)) ∧
    (term = "" → lookupMatches d "" = d.cards ∧
      lookup_card d "" = LookupResult.ambiguous d.cards) := by
  refine ⟨?_, ?_, ?_, ?_, ?_⟩
  · intro h
    simp only [lookup_card, h]
  · intro c h
    simp only [lookup_card, h]
  · intro c h2 hmem hexact
    exact lookup_card_exact d term c hnames h2 hmem hexact
  · intro h2 hne
    exact lookup_card_no_exact d term h2 hne
  · intro _
    have hms := lookupMatches_empty_term d
    refine ⟨hms, ?_⟩
    have h2 : 2 ≤ (lookupMatches d "").length := by
      rw [hms, hsize]
      omega
    have hne : ∀ c ∈ lookupMatches d "",
        pyLower c.name ≠ expandAliases (pyLower "") := by
      intro c hc hcon
      have : pyLower c.name = "" := hcon
      exact hnonempty c (hms ▸ hc) ((pyLower_eq_empty_iff c.name).mp this)
    have := lookup_card_no_exact d "" h2 hne
    rw [hms] at this
    exact this

/-- Witness for C8 at concrete inputs on a 78-card catalog with distinct
nonempty names: an unmatched string is not found, a uniquely-matched name
is found, an exact name wins over the nine names containing it, and the
empty string returns the whole catalog as ambiguous. -/
theorem lookup_card_result_policy_witness :
    lookup_card demoDeck78 "zzz" = LookupResult.notFound ∧
    lookup_card demoDeck78 "card42" = LookupResult.found (mkCard 42) ∧
    lookup_card demoDeck78 "card7" = LookupResult.found (mkCard 7) ∧
    lookup_card demoDeck78 "" = LookupResult.ambiguous demoDeck78.cards := by
  have h := lookup_card_result_policy demoDeck78 "zzz"
    (by decide) (by decide) (by decide)
  have h42 := lookup_card_result_policy demoDeck78 "card42"
    (by decide) (by decide) (by decide)
  have h7 := lookup_card_result_policy demoDeck78 "card7"
    (by decide) (by decide) (by decide)
  have hempty := lookup_card_result_policy demoDeck78 ""
    (by decide) (by decide) (by decide)
  exact ⟨h.1 (by decide),
    h42.2.1 (mkCard 42) (by decide),
    h7.2.2.1 (mkCard 7) (by decide) (by decide) (by decide),
    (hempty.2.2.2.2 rfl).2⟩

end TarotCLI
